import Mathlib

/-!
Verification of the flint-cli command-resolution and session/context
lifecycle subsystem: a shallow embedding in Lean 4 of the Go sources
(internal/resolver/resolver.go, internal/pocketbase/auth.go,
internal/config/manager.go, internal/utils/validation.go,
cmd/auth/pb.go, cmd/context/create.go, cmd/context/organization.go,
cmd/context/delete.go), with theorems about the embedded functions.

Conventions of the embedding:
- Go `interface{}` values holding decoded JSON (plus the extra slice
  shapes the source's type switches distinguish) become the inductive
  `GoVal`; `map[string]interface{}` becomes an association list.
- `time.Time` becomes an `Int` count of seconds; durations become the
  corresponding second counts (5 minutes = 300, 7 days = 604800), and
  the current instant `time.Now()` is an explicit parameter.
- Fallible Go functions returning `error` become `Except String _`,
  with messages kept close to the source (quoting punctuation dropped).
- The on-disk configuration store becomes the explicit `StoreState`;
  operations take and return it. Collaborator calls (HTTP fetches,
  stdin prompts) become explicit result parameters.
- All strings involved are ASCII, so Go's byte-wise slicing, `len` and
  `sort.Strings` coincide with the character-wise Lean counterparts
  used here.
-/

namespace Flint

/-- A decoded dynamic Go value as the source's type switches see it
(`interface{}` after `json.Unmarshal`, plus the `[]string` and
`[]map[string]interface{}` shapes that `parseOrganizationData` and
`ValidateOrganizationAccess` also switch on). A Go
`map[string]interface{}` is modelled as an association list. -/
inductive GoVal where
  | str (s : String)
  | num (n : Int)
  | boolean (b : Bool)
  | null
  | arr (elems : List GoVal)
  | strArr (elems : List String)
  | mapv (fields : List (String × GoVal))
  | mapArr (elems : List (List (String × GoVal)))

/-- A Go `map[string]interface{}` (one organization record, an auth
record, ...), modelled as an association list with unique keys. -/
abbrev OrgMap := List (String × GoVal)

/-- Go map indexing `m[key]`: the value stored at `key`, if any. -/
def lookupG : OrgMap → String → Option GoVal
  | [], _ => none
  | (k, v) :: rest, key => if k = key then some v else lookupG rest key

/-! ## Command resolver (internal/resolver/resolver.go) -/

/-- The fixed category → canonical-command-names map built by
`initializeCommands` in `NewCommandResolver`. -/
def commandCategories : List (String × List String) :=
  [ ("root", ["context", "collections", "auth", "nats", "files", "version", "help"]),
    ("context", ["create", "list", "select", "show", "delete", "organization"]),
    ("collections", ["list", "get", "create", "update", "delete"]),
    ("auth", ["pb", "nats"]),
    ("nats", ["publish", "subscribe", "request"]),
    ("files", ["upload", "download"]),
    ("stone_collections",
      ["organizations", "users", "edges", "things", "locations", "clients",
       "edge_types", "thing_types", "location_types", "edge_regions",
       "audit_logs", "topic_permissions"]) ]

/-- `r.commands[category]` on the resolver built by `NewCommandResolver`. -/
def lookupCategory : String → Option (List String) :=
  go commandCategories
where
  go : List (String × List String) → String → Option (List String)
    | [], _ => none
    | (c, cmds) :: rest, category => if c = category then some cmds else go rest category

/-- Structured form of the error values `ResolveCommand` and
`GetMinimumPrefix` build with `fmt.Errorf`. -/
inductive ResolveError where
  | categoryNotFound (category : String)
  | emptyCommand
  | unknown (typed : String) (available : List String)
  | ambiguous (typed : String) (cands : List String)
  | notInCategory (command category : String)
deriving DecidableEq, Repr

/-- `strings.ToLower` character by character (Go lower-cases each rune;
`Char.toLower` lower-cases the ASCII range, which covers every string
involved here). -/
def strToLower (s : String) : String :=
  ⟨s.data.map Char.toLower⟩

/-- `strings.HasPrefix` as a character-list check (equal to Go's
byte-wise check on ASCII strings). -/
def strHasPre (p s : String) : Bool :=
  p.data.isPrefixOf s.data

/-- The `matches` slice of `ResolveCommand`: every command whose
lower-cased form has the (already lower-cased) input as a prefix. -/
def lowMatches (commands : List String) (low : String) : List String :=
  commands.filter fun cmd => strHasPre low (strToLower cmd)

/-- Lexicographic order on character lists, the order `sort.Strings`
sorts by (byte-wise in Go, identical on ASCII). -/
def charListLe : List Char → List Char → Bool
  | [], _ => true
  | _ :: _, [] => false
  | a :: as, b :: bs =>
    if a < b then true
    else if a = b then charListLe as bs
    else false

/-- `s <= t` as `sort.Strings` compares. -/
def strLeB (s t : String) : Bool :=
  charListLe s.data t.data

/-- `sort.Strings`: ascending lexicographic sort (insertion sort over
the byte-wise order). -/
def sortStrings (l : List String) : List String :=
  l.insertionSort fun a b => strLeB a b = true

/-- The body of `ResolveCommand` after the input has been lower-cased
(`partial = strings.ToLower(partial)`): switch on the number of
prefix matches. -/
def resolveLowered (commands : List String) (low : String) : Except ResolveError String :=
  match lowMatches commands low with
  | [] => .error (.unknown low commands)
  | [m] => .ok m
  | ms => .error (.ambiguous low (sortStrings ms))

/-- `ResolveCommand` restricted to a known category list: reject the
empty input, then match on the lower-cased input. -/
def resolveList (commands : List String) (typed : String) : Except ResolveError String :=
  if typed = "" then .error .emptyCommand
  else resolveLowered commands (strToLower typed)

/-- `ResolveCommand(category, partial)` on the fixed resolver. -/
def resolveCommand (category typed : String) : Except ResolveError String :=
  match lookupCategory category with
  | none => .error (.categoryNotFound category)
  | some commands => resolveList commands typed

/-- The byte slice `s[:k]` of Go on an ASCII string, as a character take. -/
def strTake (s : String) (k : Nat) : String :=
  ⟨s.data.take k⟩

/-- The match count of `GetMinimumPrefix`'s inner loop for one candidate
abbreviation `low` (already lower-cased). -/
def countMatches (commands : List String) (low : String) : Nat :=
  (lowMatches commands low).length

/-- The loop of `GetMinimumPrefix`: the least `i` in `[1, target.length]`
whose length-`i` abbreviation matches exactly one command, if any. -/
def firstUnambiguousLen (commands : List String) (target : String) : Option Nat :=
  (List.range target.data.length).findSome? fun j =>
    if countMatches commands (strToLower (strTake target (j + 1))) = 1 then some (j + 1) else none

/-- `GetMinimumPrefix(category, command)` on the fixed resolver: find the
target command case-insensitively, then grow the abbreviation from
length 1 until it matches exactly one command (returning the full
command if no length works). -/
def getMinimumPrefix (category command : String) : Except ResolveError String :=
  match lookupCategory category with
  | none => .error (.categoryNotFound category)
  | some commands =>
    match commands.find? (fun cmd => strToLower cmd == strToLower command) with
    | none => .error (.notInCategory command category)
    | some target =>
      match firstUnambiguousLen commands target with
      | some i => .ok (strTake target i)
      | none => .ok target

/-! ## Configuration data model (internal/config/types.go) -/

/-- `config.GlobalConfig`. -/
structure GlobalConfig where
  activeContext : String
  outputFormat : String
  colorsEnabled : Bool
  paginationSize : Int
  organizationDisplay : Bool
  debug : Bool
deriving Repr

/-- `config.PocketBaseConfig`. A Go `nil` map / `nil` pointer is the
`none` of the corresponding `Option` field. -/
structure PocketBaseConfig where
  url : String
  authCollection : String
  organizationID : String
  availableCollections : List String
  authToken : String
  authExpires : Option Int
  authRecord : Option OrgMap

/-- `config.NATSConfig`. -/
structure NATSConfig where
  servers : List String
  authMethod : String
  username : String
  password : String
  token : String
  credsFile : String
  tlsEnabled : Bool
  tlsVerify : Bool

/-- `config.Context`. -/
structure Context where
  name : String
  pocketBase : PocketBaseConfig
  nats : NATSConfig

/-- `config.GetDefaultCollections()`. -/
def getDefaultCollections : List String :=
  ["organizations", "users", "edges", "things", "locations", "clients",
   "edge_types", "thing_types", "location_types", "edge_regions",
   "audit_logs", "topic_permissions"]

/-! ## Session validity and auth update (internal/pocketbase/auth.go) -/

/-- Five minutes, in seconds (`5 * time.Minute`). -/
def fiveMinutes : Int := 5 * 60

/-- Seven days, in seconds (`7 * 24 * time.Hour`). -/
def sevenDays : Int := 7 * 24 * 60 * 60

/-- `IsAuthValid(ctx)`: false for an empty token; true when no expiry is
recorded; otherwise true exactly while `time.Now().Before(expiry.Add(-5
minutes))`, i.e. strictly before expiry minus five minutes. `now` is
the current instant. -/
def isAuthValid (now : Int) (ctx : Context) : Bool :=
  if ctx.pocketBase.authToken = "" then false
  else
    match ctx.pocketBase.authExpires with
    | none => true
    | some expires => decide (now < expires - fiveMinutes)

/-- `pocketbase.AuthResponse`: token, auth record, optional meta. -/
structure AuthResponse where
  token : String
  record : Option OrgMap
  meta : Option OrgMap

/-- `UpdateAuthContextFromResponse(ctx, authResp, organizationID)`: nil
response is an error; otherwise replace the token, the auth record and
the expiry (now + 7 days), and set the organization id only when the
argument is non-empty. `none` for `authResp` models the nil pointer. -/
def updateAuthContextFromResponse (now : Int) (ctx : Context)
    (authResp : Option AuthResponse) (organizationID : String) : Except String Context :=
  match authResp with
  | none => .error "authentication response is nil"
  | some resp =>
    let pb := ctx.pocketBase
    let pb := { pb with
      authToken := resp.token
      authRecord := resp.record
      authExpires := some (now + sevenDays) }
    let pb := if organizationID ≠ "" then { pb with organizationID := organizationID } else pb
    .ok { ctx with pocketBase := pb }

/-! ## Organization membership parsing (internal/pocketbase/auth.go) -/

/-- `parseOrganizationData(orgsInterface)`: dispatch on the dynamic
shape. An `[]interface{}` keeps map elements as they are, wraps string
elements as `{"id": s}`, and silently skips elements of any other
type; `[]map[string]interface{}` is returned as is; `[]string` becomes
a list of `{"id": s}`; a single `map[string]interface{}` is wrapped in
a one-element list; every other shape is an error. -/
def parseOrganizationData : GoVal → Except String (List OrgMap)
  | .arr orgs =>
    .ok (orgs.filterMap fun org =>
      match org with
      | .mapv m => some m
      | .str s => some [("id", GoVal.str s)]
      | _ => none)
  | .mapArr orgs => .ok orgs
  | .strArr ids => .ok (ids.map fun id => [("id", GoVal.str id)])
  | .mapv m => .ok [m]
  | _ => .error "invalid organization data format"

/-- `getOrganizationID(org)` (cmd/auth/pb.go): the `id` field when it is
a string, otherwise the empty string. -/
def getOrganizationID (org : OrgMap) : String :=
  match lookupG org "id" with
  | some (.str s) => s
  | _ => ""

/-- The ids of a parsed membership list. -/
def orgIds (orgs : List OrgMap) : List String :=
  orgs.map getOrganizationID

/-! ## Organization access validation and selection
(internal/pocketbase/auth.go, cmd/auth/pb.go) -/

/-- The authentication-relevant state of `pocketbase.Client`: the bearer
token (`IsAuthenticated` is `authToken != ""`) and the cached auth
record (`nil` map modelled as `none`). -/
structure Client where
  authToken : String
  authRecord : Option OrgMap

/-- Does one element of the `[]interface{}` organizations array name
`organizationID` (a bare id string, or an object whose `id` field is
that string)? The element scan of `ValidateOrganizationAccess`. -/
def orgElemMatches (organizationID : String) : GoVal → Bool
  | .str s => s == organizationID
  | .mapv m =>
    match lookupG m "id" with
    | some (.str oid) => oid == organizationID
    | _ => false
  | _ => false

/-- The scan of the expanded `userRecord["expand"]["organizations"]`
array in `ValidateOrganizationAccess`: only object elements with a
matching string `id` count. -/
def expandElemMatches (organizationID : String) : GoVal → Bool
  | .mapv m =>
    match lookupG m "id" with
    | some (.str oid) => oid == organizationID
    | _ => false
  | _ => false

/-- `Client.ValidateOrganizationAccess(organizationID)`. The fallback
HTTP fetch `GetRecord("users", userID, ["organizations"])` is a
collaborator call; its outcome is the explicit parameter
`fetchUserRecord`. The in-record check accepts an `[]interface{}` of
id strings or objects, or an `[]string`; any other shape (or no match)
falls through to the fetch, whose `expand.organizations` array is then
scanned; no match anywhere is a does-not-belong error. -/
def validateOrganizationAccess (c : Client)
    (fetchUserRecord : Except String OrgMap) (organizationID : String) : Except String Unit :=
  if c.authToken = "" then .error "authentication required"
  else
    match c.authRecord with
    | none => .error "no authentication record available"
    | some record =>
      let inAuthRecord : Bool :=
        match lookupG record "organizations" with
        | some (.arr orgs) => orgs.any (orgElemMatches organizationID)
        | some (.strArr ids) => ids.contains organizationID
        | _ => false
      if inAuthRecord then .ok ()
      else
        match lookupG record "id" with
        | some (.str _) =>
          match fetchUserRecord with
          | .error e => .error ("failed to get user organizations: " ++ e)
          | .ok userRecord =>
            let inExpand : Bool :=
              match lookupG userRecord "expand" with
              | some (.mapv em) =>
                match lookupG em "organizations" with
                | some (.arr orgs) => orgs.any (expandElemMatches organizationID)
                | _ => false
              | _ => false
            if inExpand then .ok ()
            else .error ("user does not belong to organization " ++ organizationID)
        | _ => .error "invalid authentication record: missing user ID"

/-- Which return site of `handleUserOrganization` produced the chosen
organization (each site prints a distinct message in the source):
the flag-validated explicit request, the automatic sole membership,
the context's previously stored id, an interactively selected entry,
or no organization chosen (empty id returned). -/
inductive SelectionMode where
  | explicitRequest
  | soleMembership
  | previouslyStored
  | promptSelected
  | unset
deriving DecidableEq, Repr

/-- `handleUserOrganization(client, authResp)` (cmd/auth/pb.go).
Collaborator calls become explicit parameters: `fetchUserRecord` is the
fallback fetch used by `ValidateOrganizationAccess`; `userOrgs` is the
result of `client.GetUserOrganizations()`; `activeCtxOrg` is the
organization id of `configManager.GetActiveContext()` (`none` when no
active context loads); `promptChoice` is the organization number parsed
from the interactive prompt (`none`: empty input, set later). The
pair's second component records the return site (see `SelectionMode`).
A failed `orgs[0]["id"].(string)` type assertion is a Go panic,
modelled as an error. -/
def handleUserOrganization (c : Client) (fetchUserRecord : Except String OrgMap)
    (pbOrgID : String) (userOrgs : Except String (List OrgMap))
    (activeCtxOrg : Option String) (promptChoice : Option Nat) :
    Except String (String × SelectionMode) :=
  -- If organization was specified via flag, validate it
  if pbOrgID ≠ "" then
    match validateOrganizationAccess c fetchUserRecord pbOrgID with
    | .error e => .error ("organization validation failed: " ++ e)
    | .ok _ => .ok (pbOrgID, .explicitRequest)
  else
    -- Get user's organizations; a failure does not fail authentication
    match userOrgs with
    | .error _ => .ok ("", .unset)
    | .ok orgs =>
      match orgs with
      | [] => .ok ("", .unset)
      | [org] =>
        -- sole membership: orgs[0]["id"].(string)
        match lookupG org "id" with
        | some (.str orgID) => .ok (orgID, .soleMembership)
        | _ => .error "panic: interface conversion"
      | _ =>
        -- multiple organizations: existing context setting, else prompt
        let fallThrough : Except String (String × SelectionMode) :=
          match promptChoice with
          | none => .ok ("", .unset)
          | some sel =>
            if h : 1 ≤ sel ∧ sel ≤ orgs.length then
              match lookupG (orgs.get ⟨sel - 1, by omega⟩) "id" with
              | some (.str orgID) => .ok (orgID, .promptSelected)
              | _ => .error "panic: interface conversion"
            else .error "invalid organization selection"
        match activeCtxOrg with
        | some ctxOrg =>
          if ctxOrg ≠ "" then
            match validateOrganizationAccess c fetchUserRecord ctxOrg with
            | .ok _ => .ok (ctxOrg, .previouslyStored)
            | .error _ => fallThrough
          else fallThrough
        | none => fallThrough

/-! ## Configuration store (internal/config/manager.go) -/

/-- The on-disk configuration area: the optional global `config.yaml`
and one entry per context directory, each holding an optional
`context.yaml` (a directory without one exists but is not a context). -/
structure StoreState where
  globalConfig : Option GlobalConfig
  contextDirs : List (String × Option Context)

/-- The defaults materialized by `LoadGlobalConfig` on first run. -/
def defaultGlobalConfig : GlobalConfig :=
  { activeContext := ""
    outputFormat := "json"
    colorsEnabled := true
    paginationSize := 30
    organizationDisplay := true
    debug := false }

/-- The directory entry named `name`, if the directory exists. -/
def findDir : List (String × Option Context) → String → Option (Option Context)
  | [], _ => none
  | (n, c) :: rest, name => if n = name then some c else findDir rest name

/-- Write `content` into directory `name`, creating the directory if
absent (`os.MkdirAll` then `os.WriteFile`). -/
def putDir : List (String × Option Context) → String → Option Context →
    List (String × Option Context)
  | [], name, content => [(name, content)]
  | (n, c) :: rest, name, content =>
    if n = name then (n, content) :: rest else (n, c) :: putDir rest name content

/-- `os.RemoveAll` of directory `name`. -/
def removeDir : List (String × Option Context) → String → List (String × Option Context)
  | [], _ => []
  | (n, c) :: rest, name => if n = name then rest else (n, c) :: removeDir rest name

/-- `Manager.LoadGlobalConfig()`: materialize and persist the defaults
when the file is absent, otherwise read it. -/
def loadGlobalConfig (s : StoreState) : Except String GlobalConfig × StoreState :=
  match s.globalConfig with
  | none => (.ok defaultGlobalConfig, { s with globalConfig := some defaultGlobalConfig })
  | some g => (.ok g, s)

/-- `Manager.SaveGlobalConfig(config)`: whole-document overwrite. -/
def saveGlobalConfig (s : StoreState) (g : GlobalConfig) : StoreState :=
  { s with globalConfig := some g }

/-- `Manager.LoadContext(name)`: empty name is an error; a directory
without a `context.yaml`, or no directory, is not-found. -/
def loadContext (s : StoreState) (name : String) : Except String Context :=
  if name = "" then .error "context name cannot be empty"
  else
    match findDir s.contextDirs name with
    | some (some ctx) => .ok ctx
    | _ => .error ("context " ++ name ++ " not found")

/-- `Manager.SaveContext(context)`: empty name is an error; otherwise
create the directory if needed and overwrite its `context.yaml`. -/
def saveContext (s : StoreState) (ctx : Context) : Except String StoreState :=
  if ctx.name = "" then .error "context name cannot be empty"
  else .ok { s with contextDirs := putDir s.contextDirs ctx.name (some ctx) }

/-- `Manager.DeleteContext(name)`: empty name is an error; a missing
directory is not-found; otherwise the whole directory is removed.
Note it never touches the global configuration. -/
def deleteContext (s : StoreState) (name : String) : Except String StoreState :=
  if name = "" then .error "context name cannot be empty"
  else
    match findDir s.contextDirs name with
    | none => .error ("context " ++ name ++ " not found")
    | some _ => .ok { s with contextDirs := removeDir s.contextDirs name }

/-- `Manager.GetActiveContext()`: load (or materialize) the global
config; an empty active-context name is an error; otherwise load the
named context. -/
def getActiveContext (s : StoreState) : Except String Context × StoreState :=
  match loadGlobalConfig s with
  | (.error e, s1) => (.error ("failed to load global config: " ++ e), s1)
  | (.ok g, s1) =>
    if g.activeContext = "" then (.error "no active context set", s1)
    else (loadContext s1 g.activeContext, s1)

/-- `Manager.SetActiveContext(name)`: verify the context loads, then
update and persist the active pointer. -/
def setActiveContext (s : StoreState) (name : String) : Except String Unit × StoreState :=
  match loadContext s name with
  | .error e => (.error e, s)
  | .ok _ =>
    match loadGlobalConfig s with
    | (.error e, s1) => (.error ("failed to load global config: " ++ e), s1)
    | (.ok g, s1) => (.ok (), saveGlobalConfig s1 { g with activeContext := name })

/-! ## Context name validation (internal/utils/validation.go) -/

/-- One character of the `^[a-zA-Z0-9_-]+$` class. -/
def validNameChar (c : Char) : Bool :=
  c.isAlphanum || c == '-' || c == '_'

/-- `utils.ValidateContextName(name)`: non-empty, all characters
alphanumeric/dash/underscore, at most 50 bytes (`len(name)`). -/
def validateContextName (name : String) : Except String Unit :=
  if name = "" then .error "context name cannot be empty"
  else if !(name.data.all validNameChar) then
    .error "context name can only contain letters, numbers, hyphens, and underscores"
  else if name.utf8ByteSize > 50 then .error "context name must be 50 characters or less"
  else .ok ()

/-! ## CLI commands over the store (cmd/context/create.go,
cmd/context/organization.go `selectCmd`, cmd/context/delete.go) -/

/-- `config.NATSAuthUserPass`, `NATSAuthToken`, `NATSAuthCreds`. -/
def validNATSAuthMethods : List String := ["user_pass", "token", "creds"]

/-- The five auth collection constants. -/
def validAuthCollections : List String :=
  ["users", "clients", "edges", "things", "service_users"]

/-- The context value the create command builds: the given connection
settings, the default collection list, TLS on, and no session. -/
def newContextFor (contextName pbURL pbAuthCollection organizationID : String)
    (natsServers : List String) (natsAuthMethod : String) : Context :=
  { name := contextName
    pocketBase :=
      { url := pbURL
        authCollection := pbAuthCollection
        organizationID := organizationID
        availableCollections := getDefaultCollections
        authToken := ""
        authExpires := none
        authRecord := none }
    nats :=
      { servers := natsServers
        authMethod := natsAuthMethod
        username := ""
        password := ""
        token := ""
        credsFile := ""
        tlsEnabled := true
        tlsVerify := true } }

/-- The `RunE` body of `context create <name>` (cmd/context/create.go):
reject an empty name, missing URL or servers, an invalid NATS auth
method or auth collection, or an existing context; otherwise build the
new context and save it. Note the command checks only that the name is
non-empty; it does not call `utils.ValidateContextName`. -/
def createCmdRun (s : StoreState) (contextName pbURL pbAuthCollection organizationID : String)
    (natsServers : List String) (natsAuthMethod : String) :
    Except String Unit × StoreState :=
  if contextName = "" then (.error "context name cannot be empty", s)
  else if pbURL = "" then (.error "--pb-url is required", s)
  else if natsServers.isEmpty then (.error "--nats-servers is required", s)
  else if !(validNATSAuthMethods.contains natsAuthMethod) then
    (.error "invalid NATS auth method", s)
  else if !(validAuthCollections.contains pbAuthCollection) then
    (.error "invalid auth collection", s)
  else
    match loadContext s contextName with
    | .ok _ => (.error ("context " ++ contextName ++ " already exists"), s)
    | .error _ =>
      match saveContext s
        (newContextFor contextName pbURL pbAuthCollection organizationID
          natsServers natsAuthMethod) with
      | .error e => (.error ("failed to save context: " ++ e), s)
      | .ok s1 => (.ok (), s1)

/-- The `RunE` body of `context select <name>`
(cmd/context/organization.go): verify the context exists, then set it
active. -/
def selectCmdRun (s : StoreState) (contextName : String) : Except String Unit × StoreState :=
  match loadContext s contextName with
  | .error _ => (.error ("context " ++ contextName ++ " not found"), s)
  | .ok _ =>
    match setActiveContext s contextName with
    | (.error e, s1) => (.error ("failed to set active context: " ++ e), s1)
    | (.ok _, s1) => (.ok (), s1)

/-- The `RunE` body of `context delete <name>` (cmd/context/delete.go):
verify the context exists, load the global config, remember whether the
context is active, confirm unless `--force` (`confirmInput` is the
prompt reply; a non-yes reply cancels without deleting), delete the
directory through the store, and only then — in this CLI layer, not in
the store — clear the active pointer if the deleted context was it. -/
def deleteCmdRun (s : StoreState) (contextName : String) (force : Bool)
    (confirmInput : String) : Except String Unit × StoreState :=
  match loadContext s contextName with
  | .error _ => (.error ("context " ++ contextName ++ " not found"), s)
  | .ok _ =>
    match loadGlobalConfig s with
    | (.error e, s1) => (.error ("failed to load global config: " ++ e), s1)
    | (.ok g, s1) =>
      let isActive := g.activeContext == contextName
      let response := (strToLower confirmInput).trim
      if !force && !(response == "y" || response == "yes") then (.ok (), s1)
      else
        match deleteContext s1 contextName with
        | .error e => (.error ("failed to delete context: " ++ e), s1)
        | .ok s2 =>
          if isActive then (.ok (), saveGlobalConfig s2 { g with activeContext := "" })
          else (.ok (), s2)

/-- A context with a non-empty token and a recorded expiry, used to
instantiate theorems at concrete inputs. -/
def sampleCtx : Context :=
  { name := "dev"
    pocketBase :=
      { url := "http://pb"
        authCollection := "users"
        organizationID := "org_0"
        availableCollections := getDefaultCollections
        authToken := "tok"
        authExpires := some 1000
        authRecord := none }
    nats :=
      { servers := ["nats://n"]
        authMethod := "creds"
        username := ""
        password := ""
        token := ""
        credsFile := ""
        tlsEnabled := true
        tlsVerify := true } }

/-- The soundness check behind C8 for one category/name pair: the
minimum abbreviation is a prefix of the name, resolves to exactly that
name, and every strictly shorter prefix of the name fails to resolve
(it is an error, not a unique resolution). -/
def minAbbrevSound (c n : String) : Bool :=
  match getMinimumPrefix c n with
  | .error _ => false
  | .ok pre =>
    pre.data.isPrefixOf n.data &&
    (match resolveCommand c pre with
     | .ok m => m == n
     | .error _ => false) &&
    ((List.range pre.data.length).all fun j =>
      match resolveCommand c (strTake n j) with
      | .ok _ => false
      | .error _ => true)

/-- The context created in the C7 end-to-end scenario. -/
def ctxA : Context :=
  newContextFor "a" "http://pb" "users" "" ["nats://n"] "creds"

/-! ## Theorems -/

/-- C1: `IsAuthValid` is false for every session whose token is empty,
regardless of expiry; true for a non-empty token with no recorded
expiry; and with a recorded expiry, true exactly when the current time
is strictly before expiry minus five minutes. -/
theorem isAuthValid_spec (now expires : Int) (ctx : Context) :
    (ctx.pocketBase.authToken = "" → isAuthValid now ctx = false) ∧
    (ctx.pocketBase.authToken ≠ "" → ctx.pocketBase.authExpires = none →
      isAuthValid now ctx = true) ∧
    (ctx.pocketBase.authToken ≠ "" → ctx.pocketBase.authExpires = some expires →
      (isAuthValid now ctx = true ↔ now < expires - fiveMinutes)) := by
  unfold isAuthValid
  refine ⟨fun h => ?_, fun h hn => ?_, fun h he => ?_⟩
  · simp [h]
  · simp [h, hn]
  · simp [h, he]

/-- Witness for C1: for the sample session (token `tok`, expiry 1000)
the theorem decides validity on both sides of the 5-minute buffer. -/
theorem isAuthValid_spec_witness :
    isAuthValid 0 sampleCtx = true ∧ isAuthValid 700 sampleCtx = false := by
  constructor
  · exact ((isAuthValid_spec 0 1000 sampleCtx).2.2 (by decide) rfl).mpr (by decide)
  · have h3 := (isAuthValid_spec 700 1000 sampleCtx).2.2 (by decide) rfl
    rw [Bool.eq_false_iff]
    intro htrue
    exact absurd (h3.mp htrue) (by decide)

/-- C10: for every context and non-nil authentication response,
`UpdateAuthContextFromResponse` replaces exactly the token, the auth
record and the expiry (set to now + 7 days, ignoring any hint in the
response), updates the organization id only when the argument is
non-empty, and leaves every other field of the context unchanged. -/
theorem updateAuthContext_frame (now : Int) (ctx : Context) (resp : AuthResponse)
    (organizationID : String) :
    ∃ ctx2, updateAuthContextFromResponse now ctx (some resp) organizationID = .ok ctx2 ∧
      ctx2.pocketBase.authToken = resp.token ∧
      ctx2.pocketBase.authRecord = resp.record ∧
      ctx2.pocketBase.authExpires = some (now + sevenDays) ∧
      (organizationID = "" → ctx2.pocketBase.organizationID = ctx.pocketBase.organizationID) ∧
      (organizationID ≠ "" → ctx2.pocketBase.organizationID = organizationID) ∧
      ctx2.name = ctx.name ∧
      ctx2.pocketBase.url = ctx.pocketBase.url ∧
      ctx2.pocketBase.authCollection = ctx.pocketBase.authCollection ∧
      ctx2.pocketBase.availableCollections = ctx.pocketBase.availableCollections ∧
      ctx2.nats = ctx.nats := by
  by_cases ho : organizationID = ""
  · refine ⟨{ ctx with pocketBase := { ctx.pocketBase with
        authToken := resp.token, authRecord := resp.record,
        authExpires := some (now + sevenDays) } }, ?_, rfl, rfl, rfl,
      fun _ => rfl, fun hne => absurd ho hne, rfl, rfl, rfl, rfl, rfl⟩
    simp [updateAuthContextFromResponse, ho]
  · refine ⟨{ ctx with pocketBase := { ctx.pocketBase with
        authToken := resp.token, authRecord := resp.record,
        authExpires := some (now + sevenDays), organizationID := organizationID } }, ?_,
      rfl, rfl, rfl, fun he => absurd he ho, fun _ => rfl, rfl, rfl, rfl, rfl, rfl⟩
    simp [updateAuthContextFromResponse, ho]

/-- Witness for C10: a concrete refresh of the sample context with an
empty organization argument keeps the stored organization id. -/
theorem updateAuthContext_frame_witness :
    ∃ ctx2, updateAuthContextFromResponse 5 sampleCtx (some ⟨"t2", none, none⟩) "" = .ok ctx2 ∧
      ctx2.pocketBase.organizationID = "org_0" ∧
      ctx2.pocketBase.authExpires = some (5 + sevenDays) := by
  obtain ⟨ctx2, heq, _, _, hexp, horg, _⟩ := updateAuthContext_frame 5 sampleCtx ⟨"t2", none, none⟩ ""
  exact ⟨ctx2, heq, (horg rfl).trans rfl, hexp⟩

/-- Counterexample for C2: the claim says normalization of a single id
string succeeds; in the code a bare string hits the type switch's
default case and is an error. -/
theorem parseOrganizationData_single_string_error :
    parseOrganizationData (GoVal.str "org_1") = .error "invalid organization data format" := rfl

/-- C2 (amended): normalization of a list of id strings (either slice
shape), of a list of `{id, name}` objects, and of a single `{id}`
object referencing the same id all succeed with equal id sets, while a
single bare id string — like every other unhandled top-level shape —
is an explicit error, never an empty list. -/
theorem parseOrganizationData_amended (x nm : String) :
    (∃ l, parseOrganizationData (GoVal.strArr [x]) = .ok l ∧ orgIds l = [x]) ∧
    (∃ l, parseOrganizationData (GoVal.arr [GoVal.str x]) = .ok l ∧ orgIds l = [x]) ∧
    (∃ l, parseOrganizationData
        (GoVal.arr [GoVal.mapv [("id", GoVal.str x), ("name", GoVal.str nm)]]) = .ok l ∧
      orgIds l = [x]) ∧
    (∃ l, parseOrganizationData (GoVal.mapv [("id", GoVal.str x)]) = .ok l ∧ orgIds l = [x]) ∧
    parseOrganizationData (GoVal.str x) = .error "invalid organization data format" ∧
    parseOrganizationData (GoVal.num 7) = .error "invalid organization data format" ∧
    parseOrganizationData GoVal.null = .error "invalid organization data format" ∧
    parseOrganizationData (GoVal.boolean true) = .error "invalid organization data format" :=
  ⟨⟨_, rfl, rfl⟩, ⟨_, rfl, rfl⟩, ⟨_, rfl, rfl⟩, ⟨_, rfl, rfl⟩, rfl, rfl, rfl, rfl⟩

deriving instance DecidableEq for Except

/-- Totality of the byte-wise string order `sort.Strings` uses. -/
theorem charListLe_total (x y : List Char) : charListLe x y = true ∨ charListLe y x = true := by
  induction x generalizing y with
  | nil => left; rfl
  | cons a as ih =>
    cases y with
    | nil => right; rfl
    | cons b bs =>
      rcases lt_trichotomy a b with h | h | h
      · left; simp [charListLe, h]
      · subst h
        rcases ih bs with h2 | h2
        · left; simpa [charListLe, lt_irrefl] using h2
        · right; simpa [charListLe, lt_irrefl] using h2
      · right; simp [charListLe, h]

/-- Transitivity of the byte-wise string order `sort.Strings` uses. -/
theorem charListLe_trans (x y z : List Char) (h1 : charListLe x y = true)
    (h2 : charListLe y z = true) : charListLe x z = true := by
  induction x generalizing y z with
  | nil => rfl
  | cons a as ih =>
    cases y with
    | nil => simp [charListLe] at h1
    | cons b bs =>
      cases z with
      | nil => simp [charListLe] at h2
      | cons c cs =>
        by_cases hab : a < b
        · by_cases hbc : b < c
          · simp [charListLe, lt_trans hab hbc]
          · by_cases hbc2 : b = c
            · subst hbc2; simp [charListLe, hab]
            · simp [charListLe, hbc, hbc2] at h2
        · by_cases hab2 : a = b
          · subst hab2
            simp only [charListLe, lt_irrefl, if_false, if_pos rfl] at h1
            by_cases hbc : a < c
            · simp [charListLe, hbc]
            · by_cases hbc2 : a = c
              · subst hbc2
                simp only [charListLe, lt_irrefl, if_false, if_pos rfl] at h2 ⊢
                exact ih bs cs h1 h2
              · simp [charListLe, hbc, hbc2] at h2
          · simp [charListLe, hab, hab2] at h1

instance : IsTotal String fun a b => strLeB a b = true :=
  ⟨fun a b => charListLe_total a.data b.data⟩

instance : IsTrans String fun a b => strLeB a b = true :=
  ⟨fun a b c => charListLe_trans a.data b.data c.data⟩

/-- A successful category lookup names an entry of the command map. -/
theorem lookupCategory_go_mem (l : List (String × List String)) (c : String)
    (cmds : List String) (h : lookupCategory.go l c = some cmds) : (c, cmds) ∈ l := by
  induction l with
  | nil => simp [lookupCategory.go] at h
  | cons p rest ih =>
    obtain ⟨pc, pcmds⟩ := p
    rw [lookupCategory.go] at h
    by_cases hc : pc = c
    · rw [if_pos hc] at h
      cases h
      subst hc
      exact List.mem_cons_self _ _
    · rw [if_neg hc] at h
      exact List.mem_cons_of_mem _ (ih h)

/-- Every canonical name of the fixed command map is non-empty and,
once lower-cased input equals it, resolves to itself. -/
theorem resolve_exact_enum : ∀ p ∈ commandCategories, ∀ n ∈ p.2,
    n ≠ "" ∧ resolveLowered p.2 n = .ok n := by decide

/-- C5: for every category of the resolver's command map and every
canonical name in it, resolving any input whose lower-cased form is
that exact name returns the name itself, never an ambiguity error. -/
theorem resolveCommand_exact_name (c typed n : String) (cmds : List String)
    (hcat : lookupCategory c = some cmds) (hn : n ∈ cmds) (hlow : strToLower typed = n) :
    resolveCommand c typed = .ok n := by
  have hmem : (c, cmds) ∈ commandCategories := lookupCategory_go_mem _ _ _ hcat
  have henum := resolve_exact_enum (c, cmds) hmem n hn
  have hne : typed ≠ "" := by
    intro h
    exact henum.1 (by rw [← hlow, h]; rfl)
  unfold resolveCommand
  rw [hcat]
  show resolveList cmds typed = Except.ok n
  unfold resolveList
  rw [if_neg hne, hlow]
  exact henum.2

/-- Witness for C5: the upper-cased exact name CREATE resolves to
create in the context category. -/
theorem resolveCommand_exact_name_witness :
    resolveCommand "context" "CREATE" = .ok "create" :=
  resolveCommand_exact_name "context" "CREATE" "create"
    ["create", "list", "select", "show", "delete", "organization"]
    rfl (by decide) (by decide)

/-- C6: whenever the lower-cased input is a prefix of two or more
canonical names of a category, resolution returns an ambiguity error
carrying exactly the matching names, sorted lexicographically (the
sorted list is ordered and is a permutation of the match list). -/
theorem resolveList_ambiguous_sorted (commands : List String) (typed m1 m2 : String)
    (rest : List String) (hne : typed ≠ "")
    (hm : lowMatches commands (strToLower typed) = m1 :: m2 :: rest) :
    resolveList commands typed =
      .error (.ambiguous (strToLower typed) (sortStrings (m1 :: m2 :: rest))) ∧
    (sortStrings (m1 :: m2 :: rest)).Sorted (fun a b => strLeB a b = true) ∧
    (sortStrings (m1 :: m2 :: rest)).Perm (m1 :: m2 :: rest) := by
  refine ⟨?_, List.sorted_insertionSort _ _, List.perm_insertionSort _ _⟩
  unfold resolveList
  rw [if_neg hne]
  unfold resolveLowered
  rw [hm]

/-- Witness for C6: the spec's own example, a category containing
create and collections, where input c is ambiguous and the candidates
come back sorted. -/
theorem resolveList_ambiguous_sorted_witness :
    resolveList ["create", "collections"] "c" =
      .error (.ambiguous "c" ["collections", "create"]) := by
  have h := resolveList_ambiguous_sorted ["create", "collections"] "c" "create"
    "collections" [] (by decide) (by decide)
  rw [h.1]
  decide

/-- C8: for every category of the resolver's command map and every
canonical name in it, `GetMinimumPrefix` returns a prefix of the name
that resolves uniquely to it, while no strictly shorter prefix
resolves uniquely. -/
theorem getMinimumPrefix_sound :
    ∀ p ∈ commandCategories, ∀ n ∈ p.2, minAbbrevSound p.1 n = true := by decide

/-- Witness for C8: the context category's create command. -/
theorem getMinimumPrefix_sound_witness : minAbbrevSound "context" "create" = true :=
  getMinimumPrefix_sound ("context", ["create", "list", "select", "show", "delete", "organization"])
    (by decide) "create" (by decide)

/-- An organization object whose id is not `requested` never matches in
the auth-record scan of `ValidateOrganizationAccess`. -/
theorem orgElemMatches_mapv_false {requested : String} {m : OrgMap}
    (h : getOrganizationID m ≠ requested) :
    orgElemMatches requested (GoVal.mapv m) = false := by
  unfold orgElemMatches
  unfold getOrganizationID at h
  cases hl : lookupG m "id" with
  | none => simp [hl]
  | some v =>
    cases v <;> simp_all [beq_eq_false_iff_ne]

/-- An organization object whose id is not `requested` never matches in
the expanded-record scan of `ValidateOrganizationAccess`. -/
theorem expandElemMatches_mapv_false {requested : String} {m : OrgMap}
    (h : getOrganizationID m ≠ requested) :
    expandElemMatches requested (GoVal.mapv m) = false := by
  unfold expandElemMatches
  unfold getOrganizationID at h
  cases hl : lookupG m "id" with
  | none => simp [hl]
  | some v =>
    cases v <;> simp_all [beq_eq_false_iff_ne]

/-- When `requested` is not among a membership list's ids, scanning the
membership as an array of objects finds no match. -/
theorem any_orgElemMatches_false (membership : List OrgMap) (requested : String)
    (habs : requested ∉ orgIds membership) :
    (membership.map GoVal.mapv).any (orgElemMatches requested) = false := by
  induction membership with
  | nil => rfl
  | cons m rest ih =>
    have hm : getOrganizationID m ≠ requested := by
      intro h
      exact habs (by simp [orgIds, h.symm])
    have hrest : requested ∉ orgIds rest := fun h => habs (by simp [orgIds] at h ⊢; right; exact h)
    simp [orgElemMatches_mapv_false hm, ih hrest]

/-- When `requested` is not among a membership list's ids, scanning the
expanded record finds no match either. -/
theorem any_expandElemMatches_false (membership : List OrgMap) (requested : String)
    (habs : requested ∉ orgIds membership) :
    (membership.map GoVal.mapv).any (expandElemMatches requested) = false := by
  induction membership with
  | nil => rfl
  | cons m rest ih =>
    have hm : getOrganizationID m ≠ requested := by
      intro h
      exact habs (by simp [orgIds, h.symm])
    have hrest : requested ∉ orgIds rest := fun h => habs (by simp [orgIds] at h ⊢; right; exact h)
    simp [expandElemMatches_mapv_false hm, ih hrest]

/-- `ValidateOrganizationAccess` rejects an organization id absent from
the membership, both in the auth record (stored as an object array)
and in the consistently expanded user record fetched as fallback. -/
theorem validateOrganizationAccess_absent (membership : List OrgMap)
    (requested tok uid : String) (htok : tok ≠ "")
    (habs : requested ∉ orgIds membership) :
    validateOrganizationAccess
      ⟨tok, some [("id", GoVal.str uid),
                  ("organizations", GoVal.arr (membership.map GoVal.mapv))]⟩
      (.ok [("expand", GoVal.mapv
              [("organizations", GoVal.arr (membership.map GoVal.mapv))])])
      requested
      = .error ("user does not belong to organization " ++ requested) := by
  unfold validateOrganizationAccess
  rw [if_neg htok]
  simp [lookupG, any_orgElemMatches_false membership requested habs,
        any_expandElemMatches_false membership requested habs]

/-- C3: for every membership list and non-empty requested organization
id absent from it, `handleUserOrganization` fails with a validation
error; it never falls through to the sole membership or to the
previously stored organization id. -/
theorem handleUserOrganization_rejects_absent_requested (membership : List OrgMap)
    (requested tok uid : String) (stored : Option String) (promptChoice : Option Nat)
    (hreq : requested ≠ "") (htok : tok ≠ "")
    (habs : requested ∉ orgIds membership) :
    handleUserOrganization
      ⟨tok, some [("id", GoVal.str uid),
                  ("organizations", GoVal.arr (membership.map GoVal.mapv))]⟩
      (.ok [("expand", GoVal.mapv
              [("organizations", GoVal.arr (membership.map GoVal.mapv))])])
      requested (.ok membership) stored promptChoice
      = .error ("organization validation failed: user does not belong to organization "
                ++ requested) := by
  unfold handleUserOrganization
  rw [if_pos hreq, validateOrganizationAccess_absent membership requested tok uid htok habs]
  rfl

/-- Witness for C3: requesting `org_2` against the sole membership
`org_1` is rejected with the validation error. -/
theorem handleUserOrganization_rejects_absent_requested_witness :
    handleUserOrganization
      ⟨"tok", some [("id", GoVal.str "u1"),
                    ("organizations", GoVal.arr [GoVal.mapv [("id", GoVal.str "org_1")]])]⟩
      (.ok [("expand", GoVal.mapv
              [("organizations", GoVal.arr [GoVal.mapv [("id", GoVal.str "org_1")]])])])
      "org_2" (.ok [[("id", GoVal.str "org_1")]]) none none
      = .error "organization validation failed: user does not belong to organization org_2" :=
  handleUserOrganization_rejects_absent_requested [[("id", GoVal.str "org_1")]]
    "org_2" "tok" "u1" none none (by decide) (by decide) (by decide)

/-- C4: with no requested organization id, a membership list of exactly
one entry whose id is `org_1`, and any previously stored id (the
branch is unreachable), `handleUserOrganization` deterministically
auto-selects `(org_1, SoleMembership)`. -/
theorem handleUserOrganization_sole_membership (c : Client)
    (fetch : Except String OrgMap) (org : OrgMap) (stored : Option String)
    (promptChoice : Option Nat) (horg : lookupG org "id" = some (GoVal.str "org_1")) :
    handleUserOrganization c fetch "" (.ok [org]) stored promptChoice
      = .ok ("org_1", .soleMembership) := by
  unfold handleUserOrganization
  rw [if_neg (by simp)]
  simp [horg]

/-- Witness for C4 at a concrete client and membership. -/
theorem handleUserOrganization_sole_membership_witness :
    handleUserOrganization ⟨"tok", none⟩ (.error "no fetch") ""
      (.ok [[("id", GoVal.str "org_1"), ("name", GoVal.str "Acme")]]) (some "org_9") none
      = .ok ("org_1", .soleMembership) :=
  handleUserOrganization_sole_membership ⟨"tok", none⟩ (.error "no fetch")
    [("id", GoVal.str "org_1"), ("name", GoVal.str "Acme")] (some "org_9") none rfl

/-- Writing a directory makes it the one found under its name. -/
theorem findDir_putDir_self (dirs : List (String × Option Context)) (n : String)
    (c : Option Context) : findDir (putDir dirs n c) n = some c := by
  induction dirs with
  | nil => simp [putDir, findDir]
  | cons p rest ih =>
    obtain ⟨pn, pc⟩ := p
    by_cases h : pn = n
    · simp [putDir, findDir, h]
    · simp [putDir, findDir, h, ih]

/-- Loading a present global config returns it and leaves the store as
it is. -/
theorem loadGlobalConfig_some {s : StoreState} {g : GlobalConfig}
    (h : s.globalConfig = some g) : loadGlobalConfig s = (.ok g, s) := by
  unfold loadGlobalConfig
  rw [h]

/-- `LoadGlobalConfig` always succeeds, and afterwards the store holds
the returned document. -/
theorem loadGlobalConfig_shape (s : StoreState) :
    ∃ g, loadGlobalConfig s = (.ok g, { s with globalConfig := some g }) := by
  cases hg : s.globalConfig with
  | none => exact ⟨defaultGlobalConfig, by unfold loadGlobalConfig; rw [hg]⟩
  | some g =>
    refine ⟨g, ?_⟩
    rw [loadGlobalConfig_some hg]
    cases s with
    | mk gc dirs =>
      simp only at hg
      rw [hg]

/-- A directory holding the wanted context file loads successfully. -/
theorem loadContext_found {s : StoreState} {name : String} {ctx : Context}
    (hn : name ≠ "") (h : findDir s.contextDirs name = some (some ctx)) :
    loadContext s name = .ok ctx := by
  unfold loadContext
  rw [if_neg hn, h]

/-- Deleting an existing directory removes it and nothing else. -/
theorem deleteContext_found {s : StoreState} {name : String} {c : Option Context}
    (hn : name ≠ "") (h : findDir s.contextDirs name = some c) :
    deleteContext s name = .ok { s with contextDirs := removeDir s.contextDirs name } := by
  unfold deleteContext
  rw [if_neg hn, h]

/-- `context select` on an existing context: the global config (fresh
or existing) gets its active pointer set; nothing else changes. -/
theorem selectCmdRun_ok {s : StoreState} {name : String} {ctx : Context}
    (hn : name ≠ "") (hf : findDir s.contextDirs name = some (some ctx)) :
    ∃ g : GlobalConfig, selectCmdRun s name =
      (.ok (), { s with globalConfig := some { g with activeContext := name } }) := by
  obtain ⟨g, hg⟩ := loadGlobalConfig_shape s
  refine ⟨g, ?_⟩
  unfold selectCmdRun setActiveContext
  simp only [loadContext_found hn hf, hg]
  rfl

/-- `context delete --force` of the active context: the directory is
removed and the active pointer in preferences is cleared. -/
theorem deleteCmdRun_force_active {s : StoreState} {name : String} {g : GlobalConfig}
    {ctx : Context} (hn : name ≠ "") (hf : findDir s.contextDirs name = some (some ctx))
    (hg : s.globalConfig = some g) (ha : g.activeContext = name) :
    deleteCmdRun s name true "" =
      (.ok (), { s with globalConfig := some { g with activeContext := "" }, contextDirs := removeDir s.contextDirs name }) := by
  unfold deleteCmdRun
  simp only [loadContext_found hn hf, loadGlobalConfig_some hg,
             deleteContext_found hn hf, ha, beq_self_eq_true]
  rfl

/-- With an empty active pointer `GetActiveContext` reports no active
context. -/
theorem getActiveContext_none {s : StoreState} {g : GlobalConfig}
    (hg : s.globalConfig = some g) (ha : g.activeContext = "") :
    (getActiveContext s).1 = .error "no active context set" := by
  unfold getActiveContext
  rw [loadGlobalConfig_some hg]
  simp [ha]

/-- C7: after create a, select a, delete a with force (all store
operations succeeding), `GetActiveEnvironment` fails with the
no-active-context error — the delete command clears the pointer in
preferences; and the store's `DeleteContext` itself never modifies the
global preferences and removes only the named storage unit. -/
theorem delete_active_clears_pointer :
    (∀ s0 : StoreState, findDir s0.contextDirs "a" = none →
      ∃ s1 s2 s3 : StoreState,
        createCmdRun s0 "a" "http://pb" "users" "" ["nats://n"] "creds" = (.ok (), s1) ∧
        selectCmdRun s1 "a" = (.ok (), s2) ∧
        deleteCmdRun s2 "a" true "" = (.ok (), s3) ∧
        (getActiveContext s3).1 = .error "no active context set") ∧
    (∀ (s : StoreState) (name : String) (s2 : StoreState), deleteContext s name = .ok s2 →
      s2.globalConfig = s.globalConfig ∧ s2.contextDirs = removeDir s.contextDirs name) ∧
    (∀ (dirs : List (String × Option Context)) (name other : String), other ≠ name →
      findDir (removeDir dirs name) other = findDir dirs other) := by
  refine ⟨?_, ?_, ?_⟩
  · intro s0 h
    have hload0 : loadContext s0 "a" = .error ("context " ++ "a" ++ " not found") := by
      unfold loadContext
      rw [if_neg (by decide), h]
    have hcreate : createCmdRun s0 "a" "http://pb" "users" "" ["nats://n"] "creds" =
        (.ok (), { s0 with contextDirs := putDir s0.contextDirs "a" (some ctxA) }) := by
      unfold createCmdRun
      rw [hload0]
      rfl
    have hfind1 : findDir (putDir s0.contextDirs "a" (some ctxA)) "a" = some (some ctxA) :=
      findDir_putDir_self _ _ _
    obtain ⟨g, hselect⟩ := @selectCmdRun_ok
      { s0 with contextDirs := putDir s0.contextDirs "a" (some ctxA) }
      "a" ctxA (by decide) hfind1
    have hdelete := @deleteCmdRun_force_active
      { s0 with globalConfig := some { g with activeContext := "a" }, contextDirs := putDir s0.contextDirs "a" (some ctxA) }
      "a" { g with activeContext := "a" } ctxA
      (by decide) hfind1 rfl rfl
    have hactive := @getActiveContext_none
      { s0 with globalConfig := some { { g with activeContext := "a" } with activeContext := "" }, contextDirs := removeDir (putDir s0.contextDirs "a" (some ctxA)) "a" }
      { { g with activeContext := "a" } with activeContext := "" } rfl rfl
    exact ⟨_, _, _, hcreate, hselect, hdelete, hactive⟩
  · intro s name s2 hdel
    unfold deleteContext at hdel
    by_cases hn : name = ""
    · rw [if_pos hn] at hdel
      exact absurd hdel (by simp)
    · rw [if_neg hn] at hdel
      cases hf : findDir s.contextDirs name with
      | none => rw [hf] at hdel; exact absurd hdel (by simp)
      | some c =>
        rw [hf] at hdel
        injection hdel with hdel2
        rw [← hdel2]
        exact ⟨rfl, rfl⟩
  · intro dirs name other hne
    induction dirs with
    | nil => rfl
    | cons p rest ih =>
      obtain ⟨pn, pc⟩ := p
      by_cases hp : pn = name
      · subst hp
        simp [removeDir, findDir, Ne.symm hne]
      · by_cases ho : pn = other
        · simp [removeDir, findDir, hp, ho, hne]
        · simp [removeDir, findDir, hp, ho, ih]

/-- Witness for C7: the scenario run from an empty configuration area. -/
theorem delete_active_clears_pointer_witness :
    ∃ s1 s2 s3 : StoreState,
      createCmdRun ⟨none, []⟩ "a" "http://pb" "users" "" ["nats://n"] "creds" = (.ok (), s1) ∧
      selectCmdRun s1 "a" = (.ok (), s2) ∧
      deleteCmdRun s2 "a" true "" = (.ok (), s3) ∧
      (getActiveContext s3).1 = .error "no active context set" :=
  delete_active_clears_pointer.1 ⟨none, []⟩ rfl

/-- Counterexample for C9: the name `bad name!` contains characters
outside the alphanumeric/dash/underscore set, yet the create command
accepts it and the environment is created — the command never invokes
`ValidateContextName`. -/
theorem create_accepts_invalid_name :
    ("bad name!".data.all validNameChar = false) ∧
    (createCmdRun ⟨none, []⟩ "bad name!" "http://pb" "users" "" ["nats://n"] "creds").1
      = .ok () ∧
    ∃ ctx, findDir (createCmdRun ⟨none, []⟩ "bad name!" "http://pb" "users" ""
        ["nats://n"] "creds").2.contextDirs "bad name!" = some (some ctx) ∧
      ctx.name = "bad name!" :=
  ⟨by decide, rfl, ⟨_, rfl, rfl⟩⟩

/-- C9 (amended): `ValidateContextName` does reject every name with a
character outside alphanumeric/dash/underscore or longer than 50
bytes, but the create command validates only non-emptiness and never
calls it: any non-empty name, valid or not, passes create's checks and
the environment is created under that name. -/
theorem createCmd_skips_name_validation (s : StoreState)
    (name url coll method orgID : String) (servers : List String) :
    (name.data.all validNameChar = false ∨ 50 < name.utf8ByteSize →
      ∃ e, validateContextName name = .error e) ∧
    (name ≠ "" → url ≠ "" → servers ≠ [] →
      validNATSAuthMethods.contains method = true →
      validAuthCollections.contains coll = true →
      findDir s.contextDirs name = none →
      ∃ ctx s1, createCmdRun s name url coll orgID servers method = (.ok (), s1) ∧
        findDir s1.contextDirs name = some (some ctx) ∧ ctx.name = name) := by
  constructor
  · intro hbad
    unfold validateContextName
    by_cases hemp : name = ""
    · exact ⟨_, by rw [if_pos hemp]⟩
    · rw [if_neg hemp]
      by_cases hall : name.data.all validNameChar = true
      · have hlen : 50 < name.utf8ByteSize := by
          rcases hbad with hbad | hbad
          · rw [hall] at hbad
            exact absurd hbad (by decide)
          · exact hbad
        rw [if_neg (by simp [hall]), if_pos hlen]
        exact ⟨_, rfl⟩
      · rw [if_pos (by simp [hall])]
        exact ⟨_, rfl⟩
  · intro hname hurl hservers hmethod hcoll hfind
    have hisEmpty : servers.isEmpty = false := by
      cases servers with
      | nil => exact absurd rfl hservers
      | cons a as => rfl
    have hloadn : loadContext s name = .error ("context " ++ name ++ " not found") := by
      unfold loadContext
      rw [if_neg hname, hfind]
    have hsave : saveContext s (newContextFor name url coll orgID servers method)
        = .ok { s with contextDirs := putDir s.contextDirs name (some (newContextFor name url coll orgID servers method)) } := by
      unfold saveContext
      rw [if_neg (show ¬((newContextFor name url coll orgID servers method).name = "")
        from hname)]
      rfl
    refine ⟨newContextFor name url coll orgID servers method,
      { s with contextDirs := putDir s.contextDirs name (some (newContextFor name url coll orgID servers method)) },
      ?_, findDir_putDir_self _ _ _, rfl⟩
    unfold createCmdRun
    rw [if_neg hname, if_neg hurl, if_neg (by rw [hisEmpty]; decide),
        if_neg (by rw [hmethod]; decide), if_neg (by rw [hcoll]; decide), hloadn, hsave]

/-- Witness for C9: the amended theorem applied at the invalid name
`bad name!`, which the validator rejects and create still accepts. -/
theorem createCmd_skips_name_validation_witness :
    (∃ e, validateContextName "bad name!" = .error e) ∧
    ∃ ctx s1, createCmdRun ⟨none, []⟩ "bad name!" "http://pb" "users" "" ["nats://n"] "creds"
        = (.ok (), s1) ∧
      findDir s1.contextDirs "bad name!" = some (some ctx) ∧ ctx.name = "bad name!" := by
  have h := createCmd_skips_name_validation ⟨none, []⟩ "bad name!" "http://pb" "users"
    "creds" "" ["nats://n"]
  exact ⟨h.1 (Or.inl (by decide)),
         h.2 (by decide) (by decide) (by decide) (by decide) (by decide) rfl⟩

end Flint
